import Mathlib

/-!
# Verification of the plug-in discovery and execution harness

Shallow embedding of `src/app/main.py` from `data-toolbox-desktop`:
the plug-in discovery function `discover_plugins`, the `Runner` worker,
and the `MainWindow` event handlers (`_choose`, `_run`, `_done`),
together with theorems about the discovery registry, file provisioning,
crash isolation and the run-button interlock.
-/

namespace DataToolbox

/-- A parsed YAML value, as produced by `yaml.safe_load` on a plug-in's
module docstring.  Mapping keys are strings (the shape `safe_load`
yields for the metadata headers consumed by the harness). -/
inductive Yaml where
  | null : Yaml
  | bool : Bool → Yaml
  | nat : Nat → Yaml
  | str : String → Yaml
  | list : List Yaml → Yaml
  | dict : List (String × Yaml) → Yaml
deriving BEq, Repr

mutual

def Yaml.decEq : (a b : Yaml) → Decidable (a = b)
  | .null, .null => isTrue rfl
  | .bool a, .bool b =>
    if h : a = b then isTrue (by rw [h]) else isFalse (fun hc => h (Yaml.bool.inj hc))
  | .nat a, .nat b =>
    if h : a = b then isTrue (by rw [h]) else isFalse (fun hc => h (Yaml.nat.inj hc))
  | .str a, .str b =>
    if h : a = b then isTrue (by rw [h]) else isFalse (fun hc => h (Yaml.str.inj hc))
  | .list xs, .list ys =>
    match Yaml.decEqList xs ys with
    | isTrue h => isTrue (by rw [h])
    | isFalse h => isFalse (fun hc => h (Yaml.list.inj hc))
  | .dict xs, .dict ys =>
    match Yaml.decEqDict xs ys with
    | isTrue h => isTrue (by rw [h])
    | isFalse h => isFalse (fun hc => h (Yaml.dict.inj hc))
  | .null, .bool _ => isFalse (fun h => nomatch h)
  | .null, .nat _ => isFalse (fun h => nomatch h)
  | .null, .str _ => isFalse (fun h => nomatch h)
  | .null, .list _ => isFalse (fun h => nomatch h)
  | .null, .dict _ => isFalse (fun h => nomatch h)
  | .bool _, .null => isFalse (fun h => nomatch h)
  | .bool _, .nat _ => isFalse (fun h => nomatch h)
  | .bool _, .str _ => isFalse (fun h => nomatch h)
  | .bool _, .list _ => isFalse (fun h => nomatch h)
  | .bool _, .dict _ => isFalse (fun h => nomatch h)
  | .nat _, .null => isFalse (fun h => nomatch h)
  | .nat _, .bool _ => isFalse (fun h => nomatch h)
  | .nat _, .str _ => isFalse (fun h => nomatch h)
  | .nat _, .list _ => isFalse (fun h => nomatch h)
  | .nat _, .dict _ => isFalse (fun h => nomatch h)
  | .str _, .null => isFalse (fun h => nomatch h)
  | .str _, .bool _ => isFalse (fun h => nomatch h)
  | .str _, .nat _ => isFalse (fun h => nomatch h)
  | .str _, .list _ => isFalse (fun h => nomatch h)
  | .str _, .dict _ => isFalse (fun h => nomatch h)
  | .list _, .null => isFalse (fun h => nomatch h)
  | .list _, .bool _ => isFalse (fun h => nomatch h)
  | .list _, .nat _ => isFalse (fun h => nomatch h)
  | .list _, .str _ => isFalse (fun h => nomatch h)
  | .list _, .dict _ => isFalse (fun h => nomatch h)
  | .dict _, .null => isFalse (fun h => nomatch h)
  | .dict _, .bool _ => isFalse (fun h => nomatch h)
  | .dict _, .nat _ => isFalse (fun h => nomatch h)
  | .dict _, .str _ => isFalse (fun h => nomatch h)
  | .dict _, .list _ => isFalse (fun h => nomatch h)

def Yaml.decEqList : (xs ys : List Yaml) → Decidable (xs = ys)
  | [], [] => isTrue rfl
  | [], _ :: _ => isFalse (fun h => nomatch h)
  | _ :: _, [] => isFalse (fun h => nomatch h)
  | x :: xs, y :: ys =>
    match Yaml.decEq x y with
    | isFalse h => isFalse (fun hc => h (List.cons.inj hc).1)
    | isTrue h₁ =>
      match Yaml.decEqList xs ys with
      | isTrue h₂ => isTrue (by rw [h₁, h₂])
      | isFalse h₂ => isFalse (fun hc => h₂ (List.cons.inj hc).2)

def Yaml.decEqDict : (xs ys : List (String × Yaml)) → Decidable (xs = ys)
  | [], [] => isTrue rfl
  | [], _ :: _ => isFalse (fun h => nomatch h)
  | _ :: _, [] => isFalse (fun h => nomatch h)
  | (k₁, v₁) :: xs, (k₂, v₂) :: ys =>
    if hk : k₁ = k₂ then
      match Yaml.decEq v₁ v₂ with
      | isFalse h => isFalse (fun hc => h (congrArg Prod.snd (List.cons.inj hc).1))
      | isTrue hv =>
        match Yaml.decEqDict xs ys with
        | isTrue h₂ => isTrue (by rw [hk, hv, h₂])
        | isFalse h₂ => isFalse (fun hc => h₂ (List.cons.inj hc).2)
    else isFalse (fun hc => hk (congrArg Prod.fst (List.cons.inj hc).1))

end

instance : DecidableEq Yaml := Yaml.decEq

/-- `isinstance(meta, dict)`. -/
def Yaml.isDict : Yaml → Bool
  | .dict _ => true
  | _ => false

/-- Python subscript `m[k]` on a mapping, as an `Option` (`none` = `KeyError`
or non-mapping receiver). -/
def Yaml.getKey : Yaml → String → Option Yaml
  | .dict entries, k => (entries.find? (fun p => p.1 = k)).map Prod.snd
  | _, _ => none

/-- Python membership test `k in meta` on a mapping. -/
def Yaml.hasKey (m : Yaml) (k : String) : Bool :=
  (m.getKey k).isSome

/-- `m[k]` where the key is known to be present; the default is never
reached on the registry entries produced by discovery. -/
def Yaml.getKeyD (m : Yaml) (k : String) (dflt : Yaml) : Yaml :=
  (m.getKey k).getD dflt

/-- `str(y)`, as interpolated by the UI's f-strings.  Only scalar rendering
matters to the harness; container rendering is abstracted. -/
def Yaml.pyStr : Yaml → String
  | .null => "None"
  | .bool b => if b then "True" else "False"
  | .nat n => toString n
  | .str s => s
  | .list _ => "<list>"
  | .dict _ => "<dict>"

/-- Keyword arguments for a plug-in entry point: required-file key →
selected path (`Path(fname)` is modelled by the path string itself). -/
abbrev Kwargs := List (String × String)

/-- A plug-in entry point: `self.func(**self.kwargs)` either returns a
result value or raises (`Except.error` = any raised exception, including a
signature mismatch at the call). -/
abbrev EntryPoint := Kwargs → Except String String

/-- The module object produced by executing a plug-in file's top-level
code; `main` is `none` when the module lacks a callable named `main`
(`mod.main` would raise `AttributeError`). -/
structure PluginModule where
  main : Option EntryPoint

/-- One candidate file in the scripts directory.
`parseDoc` is the result of the read → `ast.parse` → `ast.get_docstring`
→ `textwrap.dedent` → `yaml.safe_load` chain (`Except.error` = any
exception raised in that chain: unreadable file, syntax error, YAML
error).  `execModule` is what `loader.exec_module` yields when the file's
top-level code is executed at run time (`Except.error` = load failure /
exception raised by the top-level code). -/
structure PluginFile where
  fileName : String
  parseDoc : Except String Yaml
  execModule : Except String PluginModule

/-- Python `s.startswith(pre)`, on the underlying character lists. -/
def pyStartsWith (s pre : String) : Bool :=
  pre.data.isPrefixOf s.data

/-- The `continue` filter of `discover_plugins`:
`file.name in ("__init__.py",) or file.name.startswith("_")`. -/
def skipFile (f : PluginFile) : Bool :=
  f.fileName == "__init__.py" || pyStartsWith f.fileName "_"

/-- The registry entry one loop iteration of `discover_plugins` yields for
a file, if any: requires the header chain to succeed and the result to be
a mapping with a `name` key.  Reads only `fileName` and `parseDoc` —
never `execModule`. -/
def scanEntry (f : PluginFile) : Option (Yaml × PluginFile) :=
  if skipFile f then none
  else
    match f.parseDoc with
    | .error _ => none
    | .ok meta => if meta.isDict && meta.hasKey "name" then some (meta, f) else none

/-- The warning one loop iteration of `discover_plugins` prints for a
file, if any: only the `except` branch prints, i.e. only when the header
chain raises. -/
def scanWarning (f : PluginFile) : Option String :=
  if skipFile f then none
  else
    match f.parseDoc with
    | .error exc => some ("[WARN] Skipping " ++ f.fileName ++ ": " ++ exc)
    | .ok _ => none

/-- `discover_plugins`: the yielded `(meta, file)` pairs in scan order,
together with the printed warnings.  The directory snapshot `dir` is the
`SCRIPTS_DIR.glob("*.py")` result, in glob order. -/
def discover_plugins (dir : List PluginFile) : List (Yaml × PluginFile) × List String :=
  (dir.filterMap scanEntry, dir.filterMap scanWarning)

/-- Python dict lookup `d[k]` over an insertion-ordered association list
(`none` = `KeyError`). -/
def dictGet {α β : Type} [DecidableEq α] (d : List (α × β)) (k : α) : Option β :=
  (d.find? (fun p => p.1 = k)).map Prod.snd

/-- Python dict assignment `d[k] = v`: updates the value in place when the
key is present (keeping the key's original position), otherwise appends. -/
def dictInsert {α β : Type} [DecidableEq α] (d : List (α × β)) (k : α) (v : β) : List (α × β) :=
  if d.any (fun p => p.1 = k) then d.map (fun p => if p.1 = k then (p.1, v) else p)
  else d ++ [(k, v)]

/-- The registry: plugin name (`m["name"]`, an arbitrary YAML value) →
`(meta, path)`. -/
abbrev Registry := List (Yaml × (Yaml × PluginFile))

/-- The dict comprehension in `MainWindow.__init__`:
`self.plugins = {m["name"]: (m, path) for m, path in discover_plugins()}`. -/
def buildRegistry (pairs : List (Yaml × PluginFile)) : Registry :=
  pairs.foldl (fun d mf => dictInsert d (mf.1.getKeyD "name" .null) mf) []

/-- The registry a `MainWindow` constructs over a directory snapshot. -/
def mainWindowRegistry (dir : List PluginFile) : Registry :=
  buildRegistry (discover_plugins dir).1

/-- The value emitted by `Runner.finished`: `("ok", result)` or
`("error", traceback)`. -/
inductive Outcome where
  | ok (result : String)
  | error (tb : String)
deriving DecidableEq, Repr

/-- `traceback.format_exc()` for a raised exception: a non-empty rendering
of the traceback ending in the exception's message. -/
def format_exc (e : String) : String :=
  "Traceback (most recent call last):\n" ++ e

/-- `Runner.run`: calls `self.func(**self.kwargs)` inside
`try/except Exception` and emits a tagged outcome in both branches. -/
def Runner.run (func : EntryPoint) (kwargs : Kwargs) : Outcome :=
  match func kwargs with
  | .ok result => .ok result
  | .error e => .error (format_exc e)

/-- One started `Runner` thread: the captured `func` and `kwargs`, plus an
identity `wid` standing for the `QThread` object's identity (used by the
`worker in self._workers` membership test in `_done`). -/
structure Worker where
  wid : Nat
  func : EntryPoint
  kwargs : Kwargs

/-- The mutable state of a `MainWindow` (plus `nextWid`, a fresh-identity
counter for started workers).  `outputLog` is the list of strings appended
to `self.output`; `runEnabled` is the run button's enabled flag. -/
structure HostState where
  plugins : Registry
  currentName : Option String
  selectedFiles : Kwargs
  workers : List Worker
  runEnabled : Bool
  outputLog : List String
  nextWid : Nat

/-- `MainWindow.__init__` over a directory snapshot: registry built by the
dict comprehension, no selection, no selected files, no live workers, run
button enabled, empty output. -/
def initState (dir : List PluginFile) : HostState :=
  { plugins := mainWindowRegistry dir
    currentName := none
    selectedFiles := []
    workers := []
    runEnabled := true
    outputLog := []
    nextWid := 0 }

/-- `MainWindow._choose(item)`.  The second component is an uncaught
exception escaping the slot, if any (`none` = normal return); state
mutations made before a raise are kept, as in Python. -/
def chooseSlot (s : HostState) (item : Option String) : HostState × Option String :=
  match item with
  | none => (s, none)
  | some name =>
    let s₁ := { s with currentName := some name }
    match dictGet s₁.plugins (Yaml.str name) with
    | none => (s₁, some "KeyError")
    | some (meta, _) =>
      let s₂ := { s₁ with outputLog := [] }
      match meta.getKey "description" with
      | none => (s₂, some "KeyError: description")
      | some desc =>
        let s₃ := { s₂ with outputLog :=
          s₂.outputLog ++ ["<b>" ++ desc.pyStr ++ "</b><br/>", "<u>Files required:</u>"] }
        match meta.getKey "required_files" with
        | none => (s₃, some "KeyError: required_files")
        | some rf =>
          match rf with
          | .dict reqs =>
            let s₄ := { s₃ with outputLog :=
              s₃.outputLog ++ reqs.map (fun (p : String × Yaml) => "• " ++ p.2.pyStr)
                ++ ["<i>Click Run to choose them</i><br/>"] }
            ({ s₄ with selectedFiles := [] }, none)
          | _ => (s₃, some "AttributeError: values")

/-- The file-selection loop of `MainWindow._run` (one
`QFileDialog.getOpenFileName` call per `required_files` entry, in
declaration order).  `dialogs` are the successive dialog results, `""`
meaning the user cancelled.  Returns the state after the loop and whether
it ran to completion (`false` = a cancel hit the early `return`). -/
def provisionLoop (s : HostState) (reqs : List (String × Yaml)) (dialogs : List String) :
    HostState × Bool :=
  match reqs with
  | [] => (s, true)
  | (key, label) :: rest =>
    let fname := dialogs.headD ""
    if fname = "" then
      ({ s with outputLog :=
          s.outputLog ++ ["<i>Cancelled – missing " ++ label.pyStr ++ "</i>"] }, false)
    else
      provisionLoop
        { s with
          selectedFiles := dictInsert s.selectedFiles key fname,
          outputLog := s.outputLog ++ [label.pyStr ++ ": " ++ fname] }
        rest dialogs.tail

/-- `MainWindow._run`.  The second component is an uncaught exception
escaping the slot, if any: the load (`loader.exec_module`) and the
entry-point lookup (`mod.main`) run on the UI thread with no `try` around
them, before file provisioning, so their failures escape here.  State
mutations made before a raise are kept. -/
def runSlot (s : HostState) (dialogs : List String) : HostState × Option String :=
  match s.currentName with
  | none => (s, none)
  | some name =>
    if name = "" then (s, none)
    else
      match dictGet s.plugins (Yaml.str name) with
      | none => (s, some "KeyError")
      | some (meta, f) =>
        match f.execModule with
        | .error e => (s, some e)
        | .ok m =>
          match m.main with
          | none => (s, some ("AttributeError: module " ++ f.fileName
              ++ " has no attribute main"))
          | some fn =>
            let s₁ := { s with selectedFiles := [] }
            match meta.getKey "required_files" with
            | none => (s₁, some "KeyError: required_files")
            | some rf =>
              match rf with
              | .dict reqs =>
                match provisionLoop s₁ reqs dialogs with
                | (s₂, false) => (s₂, none)
                | (s₂, true) =>
                  let s₃ := { s₂ with
                    runEnabled := false,
                    outputLog := s₂.outputLog ++ ["\nRunning …"] }
                  ({ s₃ with
                    workers := s₃.workers ++ [⟨s₃.nextWid, fn, s₃.selectedFiles⟩],
                    nextWid := s₃.nextWid + 1 }, none)
              | _ => (s₁, some "AttributeError: items")

/-- The line `_done` appends for an outcome tuple. -/
def renderOutcome : Outcome → String
  | .ok payload => "<br/><b>✓ Done → " ++ payload ++ "</b>"
  | .error payload =>
      "<br/><span style='color:red'><b>✗ Script crashed</b></span><pre>" ++ payload ++ "</pre>"

/-- `self._workers.remove(worker)` guarded by `worker in self._workers`:
removes the first occurrence, no-op when absent. -/
def removeWorker : List Worker → Nat → List Worker
  | [], _ => []
  | w :: rest, wid => if w.wid = wid then rest else w :: removeWorker rest wid

/-- `MainWindow._done(result, worker)`: renders the tagged outcome,
re-enables the run button in both branches, releases the worker. -/
def doneSlot (s : HostState) (res : Outcome) (wid : Nat) : HostState :=
  { s with
    outputLog := s.outputLog ++ [renderOutcome res],
    runEnabled := true,
    workers := removeWorker s.workers wid }

/-- A UI event delivered to the window.  `clickRun` carries the file
dialog's successive results; `done` is the `finished` signal of the worker
with identity `wid`, marshalled back to the UI thread. -/
inductive Event where
  | choose (item : Option String)
  | clickRun (dialogs : List String)
  | done (wid : Nat) (res : Outcome)

/-- One UI-thread event dispatch.  A `clickRun` is only delivered while
the run button is enabled (Qt emits `clicked` only for an enabled
button); a `done` is only delivered for a live in-flight worker (each
started `Runner` emits `finished` exactly once). -/
def step (s : HostState) (e : Event) : HostState :=
  match e with
  | .choose item => (chooseSlot s item).1
  | .clickRun dialogs => if s.runEnabled then (runSlot s dialogs).1 else s
  | .done wid res =>
      if (s.workers.map Worker.wid).contains wid then doneSlot s res wid else s

/-- The state after a startup over `dir` followed by the events `es`. -/
def reach (dir : List PluginFile) (es : List Event) : HostState :=
  es.foldl step (initState dir)

/-! ## Observation helpers (used only to state theorems) -/

/-- Sequential Python-dict assignments `acc[k] = v` for each
`((key, label), fname)` pair, as performed by the provisioning loop. -/
def insertAll (acc : Kwargs) (ps : List ((String × Yaml) × String)) : Kwargs :=
  ps.foldl (fun a p => dictInsert a p.1.1 p.2) acc

/-- The `f"{label}: {fname}"` echo lines for a list of
`((key, label), fname)` pairs. -/
def echoLines (ps : List ((String × Yaml) × String)) : List String :=
  ps.map (fun p => p.1.2.pyStr ++ ": " ++ p.2)

/-- The `f"<i>Cancelled – missing {label}</i>"` line. -/
def cancelLine (label : Yaml) : String :=
  "<i>Cancelled – missing " ++ label.pyStr ++ "</i>"

/-- The `f"[WARN] Skipping {file.name}: {exc}"` line. -/
def warnLine (fileName exc : String) : String :=
  "[WARN] Skipping " ++ fileName ++ ": " ++ exc

/-- A file with the run-time load behaviour replaced by a fixed load
failure.  Discovery output being invariant under `scrubExec` expresses
that discovery never consults (let alone runs) a file's executable code. -/
def scrubExec (f : PluginFile) : PluginFile :=
  { f with execModule := .error "ImportError: module never loaded" }

/-! ## Concrete fixtures for witnesses and counterexamples -/

/-- Header of a well-formed demo plug-in with two required files
(declared in order `base`, `demo`). -/
def sampleMeta : Yaml :=
  .dict [("name", .str "demo"), ("description", .str "Demo plug-in"),
    ("required_files", .dict [("base", .str "Billing file"), ("demo", .str "Demographics file")])]

/-- An entry point that returns an artifact path. -/
def sampleEntry : EntryPoint := fun _ => .ok "out.xlsx"

/-- The module object of the demo plug-in. -/
def sampleModule : PluginModule := ⟨some sampleEntry⟩

/-- A well-formed plug-in file. -/
def sampleFile : PluginFile := ⟨"demo.py", .ok sampleMeta, .ok sampleModule⟩

/-- Header of a plug-in whose top-level code raises at import time. -/
def crashyMeta : Yaml :=
  .dict [("name", .str "crashy"), ("description", .str "Raises at import"),
    ("required_files", .dict [("base", .str "Billing file")])]

/-- A plug-in file with a valid header whose top-level code raises when
executed: `exec_module` fails. -/
def crashyFile : PluginFile :=
  ⟨"crashy.py", .ok crashyMeta, .error "ZeroDivisionError: division by zero"⟩

/-- A file whose header parses as a mapping but lacks the `name` key. -/
def noNameFile : PluginFile :=
  ⟨"noname.py", .ok (.dict [("description", .str "lost header")]), .ok sampleModule⟩

/-- A file whose header chain raises (malformed YAML). -/
def badYamlFile : PluginFile :=
  ⟨"badyaml.py", .error "yaml.scanner.ScannerError: mapping values are not allowed here",
    .ok sampleModule⟩

/-- A second file declaring the same `name` as `sampleFile`. -/
def dupFile : PluginFile :=
  ⟨"zdup.py", .ok (.dict [("name", .str "demo"), ("description", .str "Overrides demo"),
    ("required_files", .dict [("base", .str "Billing file")])]), .ok sampleModule⟩

/-- A directory snapshot holding the demo plug-in only. -/
def sampleDir : List PluginFile := [sampleFile]

/-- Events: select the demo plug-in, then click run and pick both files. -/
def sampleRunEvents : List Event :=
  [.choose (some "demo"), .clickRun ["a.csv", "b.csv"]]

/-- A directory snapshot holding only the import-time-crashing plug-in. -/
def crashyDir : List PluginFile := [crashyFile]

/-- The run-button interlock: while a worker is in flight the run button
is disabled, and at most one worker is ever in flight. -/
def interlockInv (s : HostState) : Prop :=
  (s.runEnabled = true → s.workers = []) ∧ s.workers.length ≤ 1

/-! ## Lemmas about the Python-dict model -/

theorem dictGet_cons {α β : Type} [DecidableEq α] (p : α × β) (d : List (α × β)) (k : α) :
    dictGet (p :: d) k = if p.1 = k then some p.2 else dictGet d k := by
  by_cases h : p.1 = k <;> simp [dictGet, h]

theorem dictGet_map_update {α β : Type} [DecidableEq α] (d : List (α × β)) (n k : α) (v : β) :
    dictGet (d.map (fun p => if p.1 = n then (p.1, v) else p)) k
      = if n = k then (dictGet d k).map (fun _ => v) else dictGet d k := by
  induction d with
  | nil => by_cases h : n = k <;> simp [dictGet, h]
  | cons p rest ih =>
    by_cases hpn : p.1 = n
    · by_cases hpk : p.1 = k
      · have hnk : n = k := hpk ▸ hpn.symm
        simp [dictGet_cons, hpn, hpk, hnk]
      · have hnk : n ≠ k := fun h => hpk (h ▸ hpn)
        simp only [List.map_cons, dictGet_cons, hpn, if_true, if_pos rfl]
        simp [hpk, hnk, ih]
    · by_cases hpk : p.1 = k
      · have hnk : n ≠ k := fun h => hpn (hpk ▸ h.symm ▸ rfl)
        simp only [List.map_cons, dictGet_cons, hpn, if_false, if_neg hpn]
        simp [hpk, hnk]
      · simp only [List.map_cons, dictGet_cons, if_neg hpn]
        simp [hpk, ih]

theorem dictGet_isSome_of_any {α β : Type} [DecidableEq α] (d : List (α × β)) (n : α)
    (h : d.any (fun p => p.1 = n) = true) : (dictGet d n).isSome := by
  simp only [List.any_eq_true, decide_eq_true_eq] at h
  obtain ⟨p, hp, hpn⟩ := h
  cases hfd : List.find? (fun q => decide (q.1 = n)) d with
  | none =>
    rw [List.find?_eq_none] at hfd
    exact absurd hpn (by simpa using hfd p hp)
  | some q => simp [dictGet, hfd]

theorem dictGet_eq_none_of_not_any {α β : Type} [DecidableEq α] (d : List (α × β)) (n : α)
    (h : d.any (fun p => p.1 = n) = false) : dictGet d n = none := by
  simp only [List.any_eq_false, decide_eq_true_eq] at h
  cases hfd : List.find? (fun q => decide (q.1 = n)) d with
  | none => simp [dictGet, hfd]
  | some q =>
    have hqn := List.find?_some hfd
    have hqmem := List.mem_of_find?_eq_some hfd
    simp only [decide_eq_true_eq] at hqn
    exact absurd hqn (h q hqmem)

/-- Splitting a Python-dict lookup across an append. -/
theorem dictGet_append {α β : Type} [DecidableEq α] (d d' : List (α × β)) (k : α) :
    dictGet (d ++ d') k = (dictGet d k).or (dictGet d' k) := by
  simp only [dictGet, List.find?_append]
  cases List.find? (fun q => decide (q.1 = k)) d <;> simp

/-- Python dict assignment then lookup: the assigned key now maps to the
new value, every other key is unaffected. -/
theorem dictGet_dictInsert {α β : Type} [DecidableEq α] (d : List (α × β)) (n k : α) (v : β) :
    dictGet (dictInsert d n v) k = if n = k then some v else dictGet d k := by
  unfold dictInsert
  by_cases hc : d.any (fun p => p.1 = n) = true
  · rw [if_pos hc, dictGet_map_update]
    by_cases hnk : n = k
    · subst hnk
      obtain ⟨x, hx⟩ := Option.isSome_iff_exists.mp (dictGet_isSome_of_any d n hc)
      simp [hx]
    · simp [hnk]
  · rw [if_neg hc, dictGet_append]
    have hnone := dictGet_eq_none_of_not_any d n (Bool.eq_false_iff.mpr hc)
    by_cases hnk : n = k
    · subst hnk
      rw [hnone]
      simp [dictGet]
    · have h1 : dictGet [(n, v)] k = none := by simp [dictGet, hnk]
      rw [h1, Option.or_none]
      simp [hnk]

/-- Looking a name up in the registry built by the dict comprehension
finds exactly the last discovered pair declaring that name: the
deterministic last-wins tie-break. -/
theorem buildRegistry_get (pairs : List (Yaml × PluginFile)) (d : Registry) (k : Yaml) :
    dictGet (pairs.foldl (fun acc mf => dictInsert acc (mf.1.getKeyD "name" .null) mf) d) k
      = (pairs.reverse.find? (fun mf => mf.1.getKeyD "name" .null = k)).or (dictGet d k) := by
  induction pairs generalizing d with
  | nil => simp
  | cons mf rest ih =>
    rw [List.foldl_cons, ih, List.reverse_cons, List.find?_append]
    by_cases h : mf.1.getKeyD "name" .null = k
    · cases hr : List.find? (fun mf => decide (mf.1.getKeyD "name" .null = k)) rest.reverse
        <;> simp [Option.or, hr, dictGet_dictInsert, h]
    · cases hr : List.find? (fun mf => decide (mf.1.getKeyD "name" .null = k)) rest.reverse
        <;> simp [Option.or, hr, dictGet_dictInsert, h]

/-! ## Lemmas about discovery -/

theorem scanEntry_eq_some {f : PluginFile} {mf : Yaml × PluginFile}
    (h : scanEntry f = some mf) :
    skipFile f = false ∧ f.parseDoc = .ok mf.1 ∧ mf.1.isDict = true
      ∧ mf.1.hasKey "name" = true ∧ mf.2 = f := by
  unfold scanEntry at h
  split at h
  · exact absurd h (by simp)
  next hs =>
    split at h
    · exact absurd h (by simp)
    next meta hp =>
      split at h
      next hd =>
        obtain ⟨hd1, hd2⟩ := Bool.and_eq_true_iff.mp hd
        cases h
        exact ⟨Bool.eq_false_iff.mpr hs, hp, hd1, hd2, rfl⟩
      · exact absurd h (by simp)

theorem scanEntry_of_valid {f : PluginFile} {meta : Yaml}
    (hs : skipFile f = false) (hp : f.parseDoc = .ok meta)
    (hd : meta.isDict = true) (hn : meta.hasKey "name" = true) :
    scanEntry f = some (meta, f) := by
  unfold scanEntry
  rw [if_neg (by simp [hs]), hp]
  simp [hd, hn]

theorem scanWarning_of_error {f : PluginFile} {e : String}
    (hs : skipFile f = false) (hp : f.parseDoc = .error e) :
    scanWarning f = some (warnLine f.fileName e) := by
  unfold scanWarning
  rw [if_neg (by simp [hs]), hp]
  rfl

theorem scanWarning_of_ok {f : PluginFile} {meta : Yaml} (hp : f.parseDoc = .ok meta) :
    scanWarning f = none := by
  unfold scanWarning
  by_cases hs : skipFile f
  · rw [if_pos (by simp [hs])]
  · rw [if_neg (by simpa using hs), hp]

theorem scanEntry_scrub (f : PluginFile) :
    scanEntry (scrubExec f) = (scanEntry f).map (fun mf => (mf.1, scrubExec f)) := by
  unfold scanEntry scrubExec skipFile
  cases f with
  | mk fileName parseDoc execModule =>
    by_cases hs : (fileName == "__init__.py" || pyStartsWith fileName "_") = true
    · simp [hs]
    · simp only [hs]
      cases parseDoc with
      | error e => simp
      | ok meta =>
        by_cases hd : (meta.isDict && meta.hasKey "name") = true <;> simp [hd]

theorem scanWarning_scrub (f : PluginFile) : scanWarning (scrubExec f) = scanWarning f := by
  unfold scanWarning scrubExec skipFile
  cases f
  rfl

/-- C7: For a fixed directory snapshot, the registry is a pure function of
the snapshot (hence identical across executions), and the entry stored
under any name key is exactly the last discovered pair declaring that
name — a deterministic last-wins tie-break that always produces a
registry (no crash); moreover every discovered header really holds a
`name` key, so the comprehension's `m["name"]` subscript cannot raise. -/
theorem C7_deterministic_registry :
    (∀ (dir : List PluginFile) (k : Yaml),
      dictGet (mainWindowRegistry dir) k
        = (discover_plugins dir).1.reverse.find? (fun mf => mf.1.getKeyD "name" .null = k))
    ∧ (∀ (dir : List PluginFile) (mf : Yaml × PluginFile),
        mf ∈ (discover_plugins dir).1 → mf.1.hasKey "name" = true) := by
  constructor
  · intro dir k
    unfold mainWindowRegistry buildRegistry
    rw [buildRegistry_get]
    exact Option.or_none
  · intro dir mf hmem
    obtain ⟨f, _, hf⟩ := List.mem_filterMap.mp hmem
    exact (scanEntry_eq_some hf).2.2.2.1

/-- Witness for C7 at a snapshot with two files declaring `name: demo`:
the registry keeps the later one (`dupFile`), as the last-wins formula
prescribes, and the winning header has a `name` key. -/
theorem C7_deterministic_registry_witness :
    dictGet (mainWindowRegistry [sampleFile, dupFile]) (.str "demo")
      = ((discover_plugins [sampleFile, dupFile]).1.reverse.find?
          (fun mf => mf.1.getKeyD "name" .null = .str "demo"))
    ∧ (Yaml.dict [("name", .str "demo"), ("description", .str "Overrides demo"),
        ("required_files", .dict [("base", .str "Billing file")])]).hasKey "name" = true := by
  constructor
  · exact C7_deterministic_registry.1 [sampleFile, dupFile] (.str "demo")
  · exact C7_deterministic_registry.2 [sampleFile, dupFile]
      ((.dict [("name", .str "demo"), ("description", .str "Overrides demo"),
        ("required_files", .dict [("base", .str "Billing file")])]), dupFile)
      (List.mem_filterMap.mpr ⟨dupFile, by simp, scanEntry_of_valid (by rfl) (by rfl) (by rfl) (by rfl)⟩)

/-- C2: Discovery is independent of every file's executable code — over a
snapshot whose files all have their run-time load behaviour replaced by a
fixed load failure, discovery produces the same metadata and the same
warnings — and a file whose top-level code would raise when executed is
still discovered whenever its header is a mapping with a `name` key. -/
theorem C2_discovery_never_executes :
    (∀ dir : List PluginFile,
      (discover_plugins (dir.map scrubExec)).1
          = (discover_plugins dir).1.map (fun mf => (mf.1, scrubExec mf.2))
        ∧ (discover_plugins (dir.map scrubExec)).2 = (discover_plugins dir).2)
    ∧ (∀ (dir : List PluginFile) (f : PluginFile) (meta : Yaml) (err : String),
        f ∈ dir → skipFile f = false → f.parseDoc = .ok meta → meta.isDict = true →
        meta.hasKey "name" = true → f.execModule = .error err →
        (meta, f) ∈ (discover_plugins dir).1) := by
  constructor
  · intro dir
    constructor
    · show List.filterMap scanEntry (dir.map scrubExec)
        = (List.filterMap scanEntry dir).map (fun mf => (mf.1, scrubExec mf.2))
      rw [List.filterMap_map, List.map_filterMap]
      apply List.filterMap_congr
      intro f _
      rw [Function.comp_apply, scanEntry_scrub f]
      cases hf : scanEntry f with
      | none => rfl
      | some mf =>
        have := (scanEntry_eq_some hf).2.2.2.2
        simp [this]
    · show List.filterMap scanWarning (dir.map scrubExec) = List.filterMap scanWarning dir
      rw [List.filterMap_map]
      apply List.filterMap_congr
      intro f _
      exact scanWarning_scrub f
  · intro dir f meta err hmem hs hp hd hn _
    exact List.mem_filterMap.mpr ⟨f, hmem, scanEntry_of_valid hs hp hd hn⟩

/-- Witness for C2: `crashyFile`, whose top-level code raises
`ZeroDivisionError` when executed, is still discovered. -/
theorem C2_discovery_never_executes_witness :
    (crashyMeta, crashyFile) ∈ (discover_plugins [crashyFile]).1 :=
  C2_discovery_never_executes.2 [crashyFile] crashyFile crashyMeta
    "ZeroDivisionError: division by zero"
    (List.mem_singleton.mpr rfl) (by rfl) (by rfl) (by rfl) (by rfl) (by rfl)

/-- C3: a candidate file contributes an entry to the registry exactly when
its docstring parses as a mapping holding a `name` key, and a malformed
file in the middle of the snapshot leaves the other files' entries
untouched. -/
theorem C3_entry_iff_valid_header :
    (∀ (dir : List PluginFile) (meta : Yaml) (f : PluginFile),
      (meta, f) ∈ (discover_plugins dir).1
        ↔ f ∈ dir ∧ skipFile f = false ∧ f.parseDoc = .ok meta
            ∧ meta.isDict = true ∧ meta.hasKey "name" = true)
    ∧ (∀ (pre post : List PluginFile) (bad : PluginFile), scanEntry bad = none →
        (discover_plugins (pre ++ bad :: post)).1
          = (discover_plugins pre).1 ++ (discover_plugins post).1) := by
  constructor
  · intro dir meta f
    constructor
    · intro hmem
      obtain ⟨g, hg, hfg⟩ := List.mem_filterMap.mp hmem
      obtain ⟨hs, hp, hd, hn, hgf⟩ := scanEntry_eq_some hfg
      subst hgf
      exact ⟨hg, hs, hp, hd, hn⟩
    · rintro ⟨hmem, hs, hp, hd, hn⟩
      exact List.mem_filterMap.mpr ⟨f, hmem, scanEntry_of_valid hs hp hd hn⟩
  · intro pre post bad hbad
    unfold discover_plugins
    simp [List.filterMap_append, List.filterMap_cons, hbad]

/-- Witness for C3: in a snapshot holding a malformed file between two
valid ones, both valid files are registered and the malformed one is not. -/
theorem C3_entry_iff_valid_header_witness :
    (sampleMeta, sampleFile) ∈ (discover_plugins [sampleFile, badYamlFile, dupFile]).1
    ∧ (discover_plugins ([sampleFile] ++ badYamlFile :: [dupFile])).1
        = (discover_plugins [sampleFile]).1 ++ (discover_plugins [dupFile]).1 := by
  constructor
  · exact (C3_entry_iff_valid_header.1 [sampleFile, badYamlFile, dupFile] sampleMeta sampleFile).mpr
      ⟨by simp, by rfl, by rfl, by rfl, by rfl⟩
  · exact C3_entry_iff_valid_header.2 [sampleFile] [dupFile] badYamlFile (by rfl)

/-- C4 as stated is false: `noNameFile`, whose header parses as a mapping
without a `name` key, is excluded from the registry, yet discovery prints
no warning at all for it. -/
theorem C4_counterexample_silent_skip :
    (discover_plugins [noNameFile]).1 = [] ∧ (discover_plugins [noNameFile]).2 = [] := by
  exact ⟨by rfl, by rfl⟩

/-- C4 amended: a warning naming the file and the cause is logged exactly
for the scanned files whose header chain raises (unreadable file, syntax
error, malformed YAML); a file whose header parses but is rejected (not a
mapping, or no `name` key) is skipped silently; in either case no error
reaches the caller. -/
theorem C4_amended_warning_on_raise :
    (∀ (dir : List PluginFile) (f : PluginFile) (e : String),
      f ∈ dir → skipFile f = false → f.parseDoc = .error e →
        warnLine f.fileName e ∈ (discover_plugins dir).2)
    ∧ (∀ (f : PluginFile) (meta : Yaml), f.parseDoc = .ok meta → scanWarning f = none) := by
  constructor
  · intro dir f e hmem hs hp
    exact List.mem_filterMap.mpr ⟨f, hmem, scanWarning_of_error hs hp⟩
  · intro f meta hp
    exact scanWarning_of_ok hp

/-- Witness for the amended C4: the malformed `badYamlFile` gets a warning
naming it and the YAML error, while the parse-ok `noNameFile` is silent. -/
theorem C4_amended_warning_on_raise_witness :
    warnLine "badyaml.py" "yaml.scanner.ScannerError: mapping values are not allowed here"
      ∈ (discover_plugins [badYamlFile, noNameFile]).2
    ∧ scanWarning noNameFile = none := by
  constructor
  · exact C4_amended_warning_on_raise.1 [badYamlFile, noNameFile] badYamlFile
      "yaml.scanner.ScannerError: mapping values are not allowed here"
      (by simp) (by rfl) (by rfl)
  · exact C4_amended_warning_on_raise.2 noNameFile (.dict [("description", .str "lost header")]) (by rfl)

/-! ## Lemmas about file provisioning -/

theorem provisionLoop_frame (reqs : List (String × Yaml)) (s : HostState)
    (dialogs : List String) :
    (provisionLoop s reqs dialogs).1.workers = s.workers
    ∧ (provisionLoop s reqs dialogs).1.runEnabled = s.runEnabled
    ∧ (provisionLoop s reqs dialogs).1.nextWid = s.nextWid
    ∧ (provisionLoop s reqs dialogs).1.currentName = s.currentName
    ∧ (provisionLoop s reqs dialogs).1.plugins = s.plugins := by
  induction reqs generalizing s dialogs with
  | nil => simp [provisionLoop]
  | cons kl rest ih =>
    obtain ⟨key, label⟩ := kl
    cases dialogs with
    | nil => simp [provisionLoop]
    | cons d ds =>
      by_cases h : d = ""
      · simp [provisionLoop, h]
      · simp only [provisionLoop, List.headD_cons, if_neg h, List.tail_cons]
        exact ih _ _

theorem provisionLoop_complete (reqs : List (String × Yaml)) (pred : List String)
    (s : HostState) (rest : List String)
    (hlen : pred.length = reqs.length) (hne : ∀ d ∈ pred, d ≠ "") :
    provisionLoop s reqs (pred ++ rest)
      = ({ s with
            selectedFiles := insertAll s.selectedFiles (reqs.zip pred),
            outputLog := s.outputLog ++ echoLines (reqs.zip pred) }, true) := by
  induction reqs generalizing pred s with
  | nil =>
    have hpred : pred = [] := List.length_eq_zero.mp hlen
    subst hpred
    simp [provisionLoop, insertAll, echoLines]
  | cons kl reqs' ih =>
    obtain ⟨key, label⟩ := kl
    cases pred with
    | nil => simp at hlen
    | cons d pred' =>
      have hd : d ≠ "" := hne d (by simp)
      have hlen' : pred'.length = reqs'.length := by simpa using hlen
      have hne' : ∀ x ∈ pred', x ≠ "" := fun x hx => hne x (by simp [hx])
      simp only [List.cons_append, provisionLoop, List.headD_cons, if_neg hd, List.tail_cons]
      rw [ih pred' _ hlen' hne']
      simp [insertAll, echoLines, List.append_assoc]

theorem provisionLoop_cancel (pre post : List (String × Yaml)) (k : String) (lab : Yaml)
    (pred rest : List String) (s : HostState)
    (hlen : pred.length = pre.length) (hne : ∀ d ∈ pred, d ≠ "") :
    provisionLoop s (pre ++ (k, lab) :: post) (pred ++ "" :: rest)
      = ({ s with
            selectedFiles := insertAll s.selectedFiles (pre.zip pred),
            outputLog := s.outputLog ++ echoLines (pre.zip pred) ++ [cancelLine lab] }, false) := by
  induction pre generalizing pred s with
  | nil =>
    have hpred : pred = [] := List.length_eq_zero.mp hlen
    subst hpred
    simp [provisionLoop, insertAll, echoLines, cancelLine]
  | cons kl pre' ih =>
    obtain ⟨key, label⟩ := kl
    cases pred with
    | nil => simp at hlen
    | cons d pred' =>
      have hd : d ≠ "" := hne d (by simp)
      have hlen' : pred'.length = pre'.length := by simpa using hlen
      have hne' : ∀ x ∈ pred', x ≠ "" := fun x hx => hne x (by simp [hx])
      simp only [List.cons_append, provisionLoop, List.headD_cons, if_neg hd, List.tail_cons,
        List.append_eq]
      rw [ih pred' _ hlen' hne']
      simp [insertAll, echoLines, List.append_assoc]

theorem dictInsert_of_not_mem {α β : Type} [DecidableEq α] (d : List (α × β)) (k : α) (v : β)
    (h : k ∉ d.map Prod.fst) : dictInsert d k v = d ++ [(k, v)] := by
  unfold dictInsert
  rw [if_neg]
  intro hc
  simp only [List.any_eq_true, decide_eq_true_eq] at hc
  obtain ⟨p, hp, hpk⟩ := hc
  exact h (List.mem_map.mpr ⟨p, hp, hpk⟩)

theorem insertAll_keys (ps : List ((String × Yaml) × String)) (acc : Kwargs)
    (hdisj : ∀ p ∈ ps, p.1.1 ∉ acc.map Prod.fst)
    (hnodup : (ps.map (fun p => p.1.1)).Nodup) :
    (insertAll acc ps).map Prod.fst = acc.map Prod.fst ++ ps.map (fun p => p.1.1) := by
  induction ps generalizing acc with
  | nil => simp [insertAll]
  | cons p ps' ih =>
    have hstep : dictInsert acc p.1.1 p.2 = acc ++ [(p.1.1, p.2)] :=
      dictInsert_of_not_mem acc p.1.1 p.2 (hdisj p (by simp))
    have hdisj' : ∀ q ∈ ps', q.1.1 ∉ (dictInsert acc p.1.1 p.2).map Prod.fst := by
      intro q hq
      rw [hstep]
      simp only [List.map_append, List.mem_append, List.map_cons, List.map_nil]
      rintro (hmem | hhd)
      · exact hdisj q (by simp [hq]) hmem
      · have hqp : q.1.1 ≠ p.1.1 := by
          intro he
          exact (List.nodup_cons.mp hnodup).1 (List.mem_map.mpr ⟨q, hq, he⟩)
        simp at hhd
        exact hqp hhd
    have hnodup' : (ps'.map (fun q => q.1.1)).Nodup := (List.nodup_cons.mp hnodup).2
    show (insertAll (dictInsert acc p.1.1 p.2) ps').map Prod.fst = _
    rw [ih _ hdisj' hnodup', hstep]
    simp

/-! ## Lemmas about the `_run` and `_choose` slots -/

/-- A complete run: selection present, load succeeds, `main` exists,
`required_files` is a mapping, and the user answers every prompt.  The
worker starts with the entry point and the provisioned paths, after the
run button is disabled. -/
theorem runSlot_started (s : HostState) (name : String) (meta : Yaml) (f : PluginFile)
    (m : PluginModule) (fn : EntryPoint) (reqs : List (String × Yaml))
    (pred rest : List String)
    (hcur : s.currentName = some name) (hname : name ≠ "")
    (hlook : dictGet s.plugins (Yaml.str name) = some (meta, f))
    (hexec : f.execModule = .ok m) (hmain : m.main = some fn)
    (hreq : meta.getKey "required_files" = some (.dict reqs))
    (hlen : pred.length = reqs.length) (hne : ∀ d ∈ pred, d ≠ "") :
    runSlot s (pred ++ rest)
      = ({ s with
            selectedFiles := insertAll [] (reqs.zip pred),
            outputLog := s.outputLog ++ echoLines (reqs.zip pred) ++ ["\nRunning …"],
            runEnabled := false,
            workers := s.workers ++ [⟨s.nextWid, fn, insertAll [] (reqs.zip pred)⟩],
            nextWid := s.nextWid + 1 }, none) := by
  simp only [runSlot, hcur, if_neg hname, hlook, hexec, hmain, hreq]
  rw [provisionLoop_complete reqs pred _ rest hlen hne]

/-- A cancelled run: the user answers the first `pre.length` prompts and
cancels the next one.  The slot returns normally with only the partial
selections and the cancel message recorded: the run button, the worker
list and the rest of the state are untouched, and no prompt after the
cancelled one is reached. -/
theorem runSlot_cancelled (s : HostState) (name : String) (meta : Yaml) (f : PluginFile)
    (m : PluginModule) (fn : EntryPoint) (pre post : List (String × Yaml))
    (k : String) (lab : Yaml) (pred rest : List String)
    (hcur : s.currentName = some name) (hname : name ≠ "")
    (hlook : dictGet s.plugins (Yaml.str name) = some (meta, f))
    (hexec : f.execModule = .ok m) (hmain : m.main = some fn)
    (hreq : meta.getKey "required_files" = some (.dict (pre ++ (k, lab) :: post)))
    (hlen : pred.length = pre.length) (hne : ∀ d ∈ pred, d ≠ "") :
    runSlot s (pred ++ "" :: rest)
      = ({ s with
            selectedFiles := insertAll [] (pre.zip pred),
            outputLog := s.outputLog ++ echoLines (pre.zip pred) ++ [cancelLine lab] }, none) := by
  simp only [runSlot, hcur, if_neg hname, hlook, hexec, hmain, hreq]
  rw [provisionLoop_cancel pre post k lab pred rest _ hlen hne]

/-- Every `_run` dispatch either leaves the worker list and the run
button as they were, or appends exactly one worker and disables the run
button. -/
theorem runSlot_cases (s : HostState) (dialogs : List String) :
    ((runSlot s dialogs).1.workers = s.workers
      ∧ (runSlot s dialogs).1.runEnabled = s.runEnabled)
    ∨ (∃ w, (runSlot s dialogs).1.workers = s.workers ++ [w]
        ∧ (runSlot s dialogs).1.runEnabled = false) := by
  rcases hcur : s.currentName with _ | name
  · left; simp [runSlot, hcur]
  · by_cases hname : name = ""
    · left; simp [runSlot, hcur, hname]
    · rcases hl : dictGet s.plugins (Yaml.str name) with _ | ⟨meta, f⟩
      · left; simp [runSlot, hcur, hname, hl]
      · rcases hex : f.execModule with e | m
        · left; simp [runSlot, hcur, hname, hl, hex]
        · rcases hm : m.main with _ | fn
          · left; simp [runSlot, hcur, hname, hl, hex, hm]
          · rcases hr : meta.getKey "required_files" with _ | rf
            · left; simp [runSlot, hcur, hname, hl, hex, hm, hr]
            · cases rf with
              | null => left; simp [runSlot, hcur, hname, hl, hex, hm, hr]
              | bool b => left; simp [runSlot, hcur, hname, hl, hex, hm, hr]
              | nat n => left; simp [runSlot, hcur, hname, hl, hex, hm, hr]
              | str t => left; simp [runSlot, hcur, hname, hl, hex, hm, hr]
              | list xs => left; simp [runSlot, hcur, hname, hl, hex, hm, hr]
              | dict reqs =>
                simp only [runSlot, hcur, hname, hl, hex, hm, hr]
                rw [← hcur]
                have hfr := provisionLoop_frame reqs { s with selectedFiles := [] } dialogs
                rcases hp : provisionLoop { s with selectedFiles := [] } reqs dialogs with ⟨s₂, b⟩
                rw [hp] at hfr
                cases b
                · exact Or.inl ⟨hfr.1, hfr.2.1⟩
                · exact Or.inr ⟨⟨s₂.nextWid, fn, s₂.selectedFiles⟩,
                    congrArg (fun l => l ++ [Worker.mk s₂.nextWid fn s₂.selectedFiles]) hfr.1, rfl⟩

/-- `_choose` never touches the worker list, the run button or the
worker-identity counter. -/
theorem chooseSlot_frame (s : HostState) (item : Option String) :
    (chooseSlot s item).1.workers = s.workers
    ∧ (chooseSlot s item).1.runEnabled = s.runEnabled
    ∧ (chooseSlot s item).1.nextWid = s.nextWid := by
  cases item with
  | none => exact ⟨rfl, rfl, rfl⟩
  | some name =>
    rcases hl : dictGet s.plugins (Yaml.str name) with _ | ⟨meta, f⟩
    · simp [chooseSlot, hl]
    · rcases hd : meta.getKey "description" with _ | desc
      · simp [chooseSlot, hl, hd]
      · rcases hr : meta.getKey "required_files" with _ | rf
        · simp [chooseSlot, hl, hd, hr]
        · cases rf <;> simp [chooseSlot, hl, hd, hr]

/-! ## The run-button interlock -/

theorem interlockInv_init (dir : List PluginFile) : interlockInv (initState dir) :=
  ⟨fun _ => rfl, by simp [initState]⟩

theorem interlockInv_step (s : HostState) (e : Event) (h : interlockInv s) :
    interlockInv (step s e) := by
  obtain ⟨h1, h2⟩ := h
  cases e with
  | choose item =>
    have hfr := chooseSlot_frame s item
    show interlockInv (chooseSlot s item).1
    refine ⟨fun he => ?_, ?_⟩
    · rw [hfr.1]
      exact h1 (by rw [← hfr.2.1]; exact he)
    · rw [hfr.1]
      exact h2
  | clickRun dialogs =>
    by_cases hen : s.runEnabled = true
    · have hw : s.workers = [] := h1 hen
      have hstep : step s (.clickRun dialogs) = (runSlot s dialogs).1 := by
        simp [step, hen]
      rw [hstep]
      rcases runSlot_cases s dialogs with ⟨hww, hre⟩ | ⟨w, hww, hre⟩
      · refine ⟨fun he => ?_, ?_⟩
        · rw [hww]
          exact h1 (by rw [← hre]; exact he)
        · rw [hww]
          exact h2
      · refine ⟨fun he => ?_, ?_⟩
        · rw [hre] at he
          exact absurd he (by simp)
        · rw [hww, hw]
          simp
    · have hstep : step s (.clickRun dialogs) = s := by
        simp [step, hen]
      rw [hstep]
      exact ⟨h1, h2⟩
  | done wid res =>
    by_cases hmem : ((s.workers.map Worker.wid).contains wid) = true
    · have hone : ∃ w, s.workers = [w] ∧ w.wid = wid := by
        cases hws : s.workers with
        | nil => rw [hws] at hmem; simp at hmem
        | cons w rest =>
          have hrest : rest = [] := by
            rw [hws] at h2
            simpa using h2
          subst hrest
          rw [hws] at hmem
          simp at hmem
          exact ⟨w, rfl, hmem.symm⟩
      obtain ⟨w, hws, hwid⟩ := hone
      have hstep : step s (.done wid res) = doneSlot s res wid := by
        show (if (s.workers.map Worker.wid).contains wid = true
          then doneSlot s res wid else s) = doneSlot s res wid
        rw [if_pos hmem]
      rw [hstep]
      show interlockInv { s with
        outputLog := s.outputLog ++ [renderOutcome res],
        runEnabled := true,
        workers := removeWorker s.workers wid }
      have hrm : removeWorker s.workers wid = [] := by
        rw [hws]
        simp [removeWorker, hwid]
      exact ⟨fun _ => hrm, by rw [hrm]; simp⟩
    · have hstep : step s (.done wid res) = s := by
        show (if (s.workers.map Worker.wid).contains wid = true
          then doneSlot s res wid else s) = s
        rw [if_neg hmem]
      rw [hstep]
      exact ⟨h1, h2⟩

theorem interlockInv_foldl (es : List Event) (s : HostState) (h : interlockInv s) :
    interlockInv (es.foldl step s) := by
  induction es generalizing s with
  | nil => exact h
  | cons e rest ih => exact ih _ (interlockInv_step s e h)

theorem interlockInv_reach (dir : List PluginFile) (es : List Event) :
    interlockInv (reach dir es) :=
  interlockInv_foldl es _ (interlockInv_init dir)

/-- C8: at every reachable state, while a worker is in flight the run
control is disabled and a further run click is a complete no-op — so a
second entry-point invocation cannot begin before the outcome arrives —
and delivering the in-flight worker's outcome, success or failure,
re-enables the run control. -/
theorem C8_run_control_interlock (dir : List PluginFile) (es : List Event) :
    ((reach dir es).workers ≠ [] →
      (reach dir es).runEnabled = false
      ∧ ∀ dialogs, step (reach dir es) (.clickRun dialogs) = reach dir es)
    ∧ (∀ wid res, wid ∈ (reach dir es).workers.map Worker.wid →
        (step (reach dir es) (.done wid res)).runEnabled = true) := by
  have hinv := interlockInv_reach dir es
  constructor
  · intro hw
    have hre : (reach dir es).runEnabled = false := by
      cases hen : (reach dir es).runEnabled
      · rfl
      · exact absurd (hinv.1 hen) hw
    refine ⟨hre, fun dialogs => ?_⟩
    simp [step, hre]
  · intro wid res hmem
    have hcont : ((reach dir es).workers.map Worker.wid).contains wid = true := by
      simpa using hmem
    simp only [step, hcont, if_pos]
    rfl

/-- Witness for C8: after the demo plug-in's run starts, a worker is in
flight, the run button is disabled, a second click changes nothing, and
delivering the outcome re-enables the button. -/
theorem C8_run_control_interlock_witness :
    (reach sampleDir sampleRunEvents).workers ≠ []
    ∧ (reach sampleDir sampleRunEvents).runEnabled = false
    ∧ step (reach sampleDir sampleRunEvents) (.clickRun ["x.csv", "y.csv"])
        = reach sampleDir sampleRunEvents
    ∧ (step (reach sampleDir sampleRunEvents) (.done 0 (.error "tb"))).runEnabled = true := by
  have hw : (reach sampleDir sampleRunEvents).workers ≠ [] := by
    intro h
    have hlen : (reach sampleDir sampleRunEvents).workers.length = 1 := by rfl
    rw [h] at hlen
    simp at hlen
  have h8 := C8_run_control_interlock sampleDir sampleRunEvents
  refine ⟨hw, (h8.1 hw).1, (h8.1 hw).2 ["x.csv", "y.csv"], h8.2 0 (.error "tb") ?_⟩
  rw [show (reach sampleDir sampleRunEvents).workers.map Worker.wid = [0] from by rfl]
  simp

/-! ## Provisioning, no-op and crash-isolation claims -/

/-- C5: in a run whose user cancels the prompt after answering the first
`pre.length` ones, the slot returns at once: the log shows exactly one
`label: path` echo per answered prompt, in declared order, followed by
the cancel message naming the cancelled requirement's label (so no later
prompt was reached), no worker is started and the run control is left
untouched, hence the entry point is never invoked for that run. -/
theorem C5_cancel_aborts_provisioning (s : HostState) (name : String) (meta : Yaml)
    (f : PluginFile) (m : PluginModule) (fn : EntryPoint) (pre post : List (String × Yaml))
    (k : String) (lab : Yaml) (pred rest : List String)
    (hcur : s.currentName = some name) (hname : name ≠ "")
    (hlook : dictGet s.plugins (Yaml.str name) = some (meta, f))
    (hexec : f.execModule = .ok m) (hmain : m.main = some fn)
    (hreq : meta.getKey "required_files" = some (.dict (pre ++ (k, lab) :: post)))
    (hlen : pred.length = pre.length) (hne : ∀ d ∈ pred, d ≠ "") :
    ∃ s' : HostState,
      runSlot s (pred ++ "" :: rest) = (s', none)
      ∧ s'.workers = s.workers
      ∧ s'.runEnabled = s.runEnabled
      ∧ s'.outputLog = s.outputLog ++ echoLines (pre.zip pred) ++ [cancelLine lab] := by
  refine ⟨_, runSlot_cancelled s name meta f m fn pre post k lab pred rest
    hcur hname hlook hexec hmain hreq hlen hne, rfl, rfl, rfl⟩

/-- Witness for C5: the demo plug-in's run with the second prompt
cancelled: the billing echo appears, then the cancel line naming the
demographics label; no worker starts. -/
theorem C5_cancel_aborts_provisioning_witness :
    ∃ s' : HostState,
      runSlot (reach sampleDir [.choose (some "demo")]) ["a.csv", ""] = (s', none)
      ∧ s'.workers = (reach sampleDir [.choose (some "demo")]).workers
      ∧ s'.runEnabled = (reach sampleDir [.choose (some "demo")]).runEnabled
      ∧ s'.outputLog = (reach sampleDir [.choose (some "demo")]).outputLog
          ++ echoLines ([("base", Yaml.str "Billing file")].zip ["a.csv"])
          ++ [cancelLine (Yaml.str "Demographics file")] := by
  have h := C5_cancel_aborts_provisioning (reach sampleDir [.choose (some "demo")])
    "demo" sampleMeta sampleFile sampleModule sampleEntry
    [("base", Yaml.str "Billing file")] [] "demo" (Yaml.str "Demographics file")
    ["a.csv"] [] (by rfl) (by simp) (by rfl) (by rfl) (by rfl) (by rfl) (by rfl)
    (by intro d hd; simp at hd; simp [hd])
  simpa using h

/-- C6: when a run reaches entry-point invocation, the started worker
carries the resolved entry point and a path mapping whose key list is
exactly the `required_files` key list — no declared key missing, no
undeclared key present; and a run with a cancelled (unresolved) key never
starts a worker. -/
theorem C6_kwargs_exactly_declared_keys :
    (∀ (s : HostState) (name : String) (meta : Yaml) (f : PluginFile) (m : PluginModule)
      (fn : EntryPoint) (reqs : List (String × Yaml)) (pred rest : List String),
      s.currentName = some name → name ≠ "" →
      dictGet s.plugins (Yaml.str name) = some (meta, f) →
      f.execModule = .ok m → m.main = some fn →
      meta.getKey "required_files" = some (.dict reqs) →
      (reqs.map Prod.fst).Nodup →
      pred.length = reqs.length → (∀ d ∈ pred, d ≠ "") →
      ∃ w : Worker, (runSlot s (pred ++ rest)).1.workers = s.workers ++ [w]
        ∧ w.kwargs.map Prod.fst = reqs.map Prod.fst
        ∧ w.func = fn)
    ∧ (∀ (s : HostState) (name : String) (meta : Yaml) (f : PluginFile) (m : PluginModule)
      (fn : EntryPoint) (pre post : List (String × Yaml)) (k : String) (lab : Yaml)
      (pred rest : List String),
      s.currentName = some name → name ≠ "" →
      dictGet s.plugins (Yaml.str name) = some (meta, f) →
      f.execModule = .ok m → m.main = some fn →
      meta.getKey "required_files" = some (.dict (pre ++ (k, lab) :: post)) →
      pred.length = pre.length → (∀ d ∈ pred, d ≠ "") →
      (runSlot s (pred ++ "" :: rest)).1.workers = s.workers) := by
  constructor
  · intro s name meta f m fn reqs pred rest hcur hname hlook hexec hmain hreq hnodup hlen hne
    refine ⟨⟨s.nextWid, fn, insertAll [] (reqs.zip pred)⟩, ?_, ?_, rfl⟩
    · rw [runSlot_started s name meta f m fn reqs pred rest
        hcur hname hlook hexec hmain hreq hlen hne]
    · show (insertAll [] (reqs.zip pred)).map Prod.fst = reqs.map Prod.fst
      have hmap : (reqs.zip pred).map (fun p => p.1.1) = reqs.map Prod.fst := by
        have h1 : (reqs.zip pred).map (fun p => p.1.1)
            = ((reqs.zip pred).map Prod.fst).map Prod.fst := by
          rw [List.map_map]
          rfl
        rw [h1, List.map_fst_zip reqs pred (le_of_eq hlen.symm)]
      have hkeys := insertAll_keys (reqs.zip pred) []
        (by intro p _; simp) (by rw [hmap]; exact hnodup)
      rw [hkeys, hmap]
      simp
  · intro s name meta f m fn pre post k lab pred rest hcur hname hlook hexec hmain hreq hlen hne
    rw [runSlot_cancelled s name meta f m fn pre post k lab pred rest
      hcur hname hlook hexec hmain hreq hlen hne]

/-- Witness for C6: running the demo plug-in with both prompts answered
starts one worker whose path-mapping keys are exactly `base, demo`. -/
theorem C6_kwargs_exactly_declared_keys_witness :
    ∃ w : Worker,
      (runSlot (reach sampleDir [.choose (some "demo")]) ["a.csv", "b.csv"]).1.workers
        = (reach sampleDir [.choose (some "demo")]).workers ++ [w]
      ∧ w.kwargs.map Prod.fst = ["base", "demo"]
      ∧ w.func = sampleEntry := by
  have h := C6_kwargs_exactly_declared_keys.1 (reach sampleDir [.choose (some "demo")])
    "demo" sampleMeta sampleFile sampleModule sampleEntry
    [("base", .str "Billing file"), ("demo", .str "Demographics file")]
    ["a.csv", "b.csv"] [] (by rfl) (by decide) (by rfl) (by rfl) (by rfl) (by rfl)
    (by decide) (by rfl) (by decide)
  simpa using h

/-- C9 as stated is false: with the import-time-crashing plug-in selected
and a file answer ready, `_run` surfaces the load error while the log and
the selected-file mapping still show that no prompt was ever issued — the
load is attempted before provisioning, not after. -/
theorem C9_counterexample_load_first :
    (runSlot (reach crashyDir [.choose (some "crashy")]) ["a.csv"]).2
      = some "ZeroDivisionError: division by zero"
    ∧ (runSlot (reach crashyDir [.choose (some "crashy")]) ["a.csv"]).1.outputLog
      = (reach crashyDir [.choose (some "crashy")]).outputLog
    ∧ (runSlot (reach crashyDir [.choose (some "crashy")]) ["a.csv"]).1.selectedFiles
      = (reach crashyDir [.choose (some "crashy")]).selectedFiles :=
  ⟨by rfl, by rfl, by rfl⟩

/-- C9 amended: in a run, the Execution Engine loads the plugin's code at
run time on the UI thread first — a load failure surfaces before any
prompt is issued and before any state changes — and only after the File
Provisioner has collected every required path does the worker start,
carrying the entry point and the collected paths, so the off-thread
execution happens strictly after provisioning; loading still never
happens at discovery time. -/
theorem C9_amended_load_then_provision_then_execute :
    (∀ (s : HostState) (name : String) (meta : Yaml) (f : PluginFile) (e : String)
      (dialogs : List String),
      s.currentName = some name → name ≠ "" →
      dictGet s.plugins (Yaml.str name) = some (meta, f) →
      f.execModule = .error e →
      runSlot s dialogs = (s, some e))
    ∧ (∀ (s : HostState) (name : String) (meta : Yaml) (f : PluginFile) (m : PluginModule)
      (fn : EntryPoint) (reqs : List (String × Yaml)) (pred rest : List String),
      s.currentName = some name → name ≠ "" →
      dictGet s.plugins (Yaml.str name) = some (meta, f) →
      f.execModule = .ok m → m.main = some fn →
      meta.getKey "required_files" = some (.dict reqs) →
      pred.length = reqs.length → (∀ d ∈ pred, d ≠ "") →
      (runSlot s (pred ++ rest)).1.workers
        = s.workers ++ [⟨s.nextWid, fn, insertAll [] (reqs.zip pred)⟩]
      ∧ (runSlot s (pred ++ rest)).1.outputLog
        = s.outputLog ++ echoLines (reqs.zip pred) ++ ["\nRunning …"]) := by
  constructor
  · intro s name meta f e dialogs hcur hname hlook hexec
    simp [runSlot, hcur, hname, hlook, hexec]
  · intro s name meta f m fn reqs pred rest hcur hname hlook hexec hmain hreq hlen hne
    rw [runSlot_started s name meta f m fn reqs pred rest
      hcur hname hlook hexec hmain hreq hlen hne]
    exact ⟨rfl, rfl⟩

/-- Witness for the amended C9: the crashing plug-in's load error escapes
with the state untouched, and the demo plug-in's worker starts only after
both prompts were echoed, with the running marker last. -/
theorem C9_amended_load_then_provision_then_execute_witness :
    runSlot (reach crashyDir [.choose (some "crashy")]) ["b.csv"]
      = (reach crashyDir [.choose (some "crashy")],
         some "ZeroDivisionError: division by zero")
    ∧ (runSlot (reach sampleDir [.choose (some "demo")]) ["a.csv", "b.csv"]).1.outputLog
      = (reach sampleDir [.choose (some "demo")]).outputLog
        ++ echoLines ([("base", Yaml.str "Billing file"),
            ("demo", Yaml.str "Demographics file")].zip ["a.csv", "b.csv"])
        ++ ["\nRunning …"] := by
  constructor
  · exact C9_amended_load_then_provision_then_execute.1
      (reach crashyDir [.choose (some "crashy")]) "crashy" crashyMeta crashyFile
      "ZeroDivisionError: division by zero" ["b.csv"] (by rfl) (by decide) (by rfl) (by rfl)
  · have h := C9_amended_load_then_provision_then_execute.2
      (reach sampleDir [.choose (some "demo")]) "demo" sampleMeta sampleFile
      sampleModule sampleEntry
      [("base", .str "Billing file"), ("demo", .str "Demographics file")]
      ["a.csv", "b.csv"] [] (by rfl) (by decide) (by rfl) (by rfl) (by rfl) (by rfl)
      (by rfl) (by decide)
    simpa using h.2

/-- C10: clicking run with no plugin selected (`self._current_name` falsy)
returns immediately: the state — selected files, workers, run control,
output log — is unchanged and nothing escapes. -/
theorem C10_run_without_selection_noop (s : HostState) (dialogs : List String)
    (h : s.currentName = none ∨ s.currentName = some "") :
    runSlot s dialogs = (s, none) := by
  rcases h with h | h <;> simp [runSlot, h]

/-- Witness for C10: at startup, before any selection, a run click leaves
the freshly initialised window untouched. -/
theorem C10_run_without_selection_noop_witness :
    runSlot (initState sampleDir) ["a.csv"] = (initState sampleDir, none) :=
  C10_run_without_selection_noop _ _ (Or.inl (by rfl))

/-- C1 as stated is false: when the selected plug-in's top-level code
raises during `loader.exec_module` — which `_run` performs with no `try`
around it — the exception escapes the slot uncaught (second component
`some …`) and the state is completely unchanged: no Failure outcome, no
log entry, no worker ever sees the error. -/
theorem C1_counterexample_uncaught_load_error :
    runSlot (reach crashyDir [.choose (some "crashy")]) ["a.csv"]
      = (reach crashyDir [.choose (some "crashy")],
         some "ZeroDivisionError: division by zero") := by
  rfl

theorem format_exc_ne_empty (e : String) : format_exc e ≠ "" := by
  intro hh
  have hlen := congrArg String.length hh
  rw [show format_exc e = "Traceback (most recent call last):\n" ++ e from rfl,
    String.length_append] at hlen
  rw [show ("Traceback (most recent call last):\n" : String).length = 35 from by rfl] at hlen
  rw [show ("" : String).length = 0 from rfl] at hlen
  omega

/-- C1 amended: an exception raised while the worker calls the entry
point is always caught by `Runner.run` and emitted as a tagged outcome —
`("ok", result)` or `("error", tb)` with a non-empty traceback — and
never escapes the worker; but an exception during plugin loading or
entry-point lookup happens on the UI thread before any worker exists and
escapes `_run` uncaught (see the counterexample). -/
theorem C1_amended_worker_crash_isolation (func : EntryPoint) (kwargs : Kwargs) :
    (∃ r, Runner.run func kwargs = .ok r)
    ∨ (∃ tb, Runner.run func kwargs = .error tb ∧ tb ≠ "") := by
  cases h : func kwargs with
  | ok r => exact Or.inl ⟨r, by simp [Runner.run, h]⟩
  | error e =>
    exact Or.inr ⟨format_exc e, by simp [Runner.run, h], format_exc_ne_empty e⟩

end DataToolbox
